import Mathlib

/-!
Verification of the kleinblatt production-order scheduler against its
specification.

Shallow embedding conventions:
* A calendar date is an integer number of days; `timedelta(days = k)`
  arithmetic becomes integer addition.  Day `0` is a Monday, so Python's
  `date.weekday()` (Monday = 0 … Sunday = 6) becomes `pyWeekday d = d % 7`
  (`Int.emod`, non-negative for the positive modulus, exactly like
  Python's `%`).
* Python `float` quantities are modelled as `ℚ`.
* A Python value that may be `None` becomes an `Option`; Python truthiness
  of a `date` field is `≠ none` (a concrete date is always truthy).
* Peewee rows become Lean structures; the database is a list of rows; a
  query is a `filter`/`map` over that list; `delete_instance` removes the
  row; an exception inside a `db.atomic()` block rolls the whole
  transaction back, modelled as returning the unmodified pre-state.
-/

/-- Python's `date.weekday()`: Monday = 0 … Sunday = 6, with day 0 a Monday. -/
def pyWeekday (d : ℤ) : ℤ := d % 7

/-- `models.Item`: catalog item with its row id and growth parameters
(`models.py` lines 18-29). -/
structure Item where
  id : ℕ
  name : String
  seed_quantity : ℚ
  soaking_days : ℕ
  germination_days : ℕ
  growth_days : ℕ
  price : ℚ
  substrate : Option String
deriving DecidableEq, Repr

/-- `Item.total_days` property: `germination_days + growth_days`. -/
def Item.total_days (it : Item) : ℕ := it.germination_days + it.growth_days

/-- An unsaved `OrderItem(item = …, amount = …)` as used for the
production-date computation (only the two fields the code reads). -/
structure TempItem where
  item : Item
  amount : ℚ
deriving DecidableEq, Repr

/-- `database.calculate_itemwise_production_dates(delivery_date, items,
allow_sunday = True)` (`database.py` lines 6-18): per item, production date
is `delivery_date - item.total_days`; if that lands on Sunday and
`allow_sunday` is false, shift one day earlier.  The Python dict (keyed by
order item, insertion order) is a list of pairs. -/
def calculate_itemwise_production_dates (delivery_date : ℤ)
    (items : List TempItem) (allow_sunday : Bool := true) :
    List (TempItem × ℤ) :=
  items.map (fun order_item =>
    let days : ℤ := order_item.item.total_days
    let production_date := delivery_date - days
    if !allow_sunday && pyWeekday production_date == 6 then
      (order_item, production_date - 1)
    else
      (order_item, production_date))

/-- The transfer date as computed at every order-item creation site
(`weekly_view.py` line 937, `main.py` lines 1788, 1895, 1921, 372):
`production_date + item.germination_days`. -/
def transfer_date_for (production_date : ℤ) (it : Item) : ℤ :=
  production_date + it.germination_days

/-- The seed order as read by `generate_subscription_orders`: the fields of
`models.Order` it touches, plus the in-memory `production_date` attribute
(`some` a dict of per-item dates when the caller stored one, `none` when the
attribute is not a dict). -/
structure SeedOrder where
  customer : ℕ
  delivery_date : ℤ
  from_date : Option ℤ
  to_date : Option ℤ
  subscription_type : ℕ
  halbe_channel : Bool
  production_date : Option (List (TempItem × ℤ))
  order_items : List TempItem
deriving DecidableEq, Repr

/-- One generated draft order: the dict built in
`database.generate_subscription_orders` (`database.py` lines 43-56). -/
structure DraftOrder where
  customer : ℕ
  delivery_date : ℤ
  production_date : List (TempItem × ℤ)
  halbe_channel : Bool
  is_future : Bool
  subscription_type : ℕ
  from_date : Option ℤ
  to_date : Option ℤ
deriving DecidableEq, Repr

/-- The cadence table `frequencies = {1: 7, 2: 14, 3: 21, 4: 28}`
(`database.py` line 24); `none` models the `KeyError` on any other code. -/
def frequencies : ℕ → Option ℕ
  | 1 => some 7
  | 2 => some 14
  | 3 => some 21
  | 4 => some 28
  | _ => none

/-- `database.py` lines 39-41: the Sunday flag for generated instances.
`production_dates` is the seed's `production_date` when it is a dict, else
`{}`; `sample_date` is its first value; `allow_sunday` is
`sample_date.weekday() != 6` when a sample exists, else `True`. -/
def seedAllowSunday (o : SeedOrder) : Bool :=
  let production_dates := o.production_date.getD []
  match (production_dates.map Prod.snd).head? with
  | some sample_date => pyWeekday sample_date != 6
  | none => true

/-- The dict appended per iteration of the `while` loop
(`database.py` lines 43-56). -/
def mkDraft (o : SeedOrder) (current_date : ℤ) : DraftOrder :=
  { customer := o.customer
    delivery_date := current_date
    production_date :=
      calculate_itemwise_production_dates current_date o.order_items
        (seedAllowSunday o)
    halbe_channel := o.halbe_channel
    is_future := true
    subscription_type := o.subscription_type
    from_date := o.from_date
    to_date := o.to_date }

/-- The `while current_date <= order.to_date` loop of
`generate_subscription_orders` (`database.py` lines 36-59).  The extra
`0 < delta` guard only makes termination explicit: `frequencies` yields
7/14/21/28, and with `delta = 0` the Python loop would not terminate. -/
def genLoop (o : SeedOrder) (delta : ℕ) (toD : ℤ) (current_date : ℤ) :
    List DraftOrder :=
  if _h : 0 < delta ∧ current_date ≤ toD then
    mkDraft o current_date :: genLoop o delta toD (current_date + delta)
  else
    []
termination_by (toD + 1 - current_date).toNat
decreasing_by
  simp_wf
  omega

/-- `database.generate_subscription_orders(order)` (`database.py` lines
20-61).  Returns `none` for the `KeyError` raised when the cadence code is
outside `{0,1,2,3,4}` (only reachable with both window bounds set). -/
def generate_subscription_orders (o : SeedOrder) : Option (List DraftOrder) :=
  if o.subscription_type = 0 ∨ o.from_date = none ∨ o.to_date = none then
    some []
  else
    match frequencies o.subscription_type, o.to_date with
    | some delta, some toD =>
        some (genLoop o delta toD (o.delivery_date + delta))
    | some _, none => some []
    | none, _ => none

/-- Number of iterations the `while` loop performs from `current`. -/
def loopCount (delta : ℕ) (toD current : ℤ) : ℕ :=
  if current ≤ toD then (toD - current).toNat / delta + 1 else 0

/-- A persisted `models.OrderItem` row (`models.py` lines 54-59). -/
structure OItemRow where
  item : Item
  amount : ℚ
  production_date : ℤ
  transfer_date : ℤ
deriving DecidableEq, Repr

/-- A persisted `models.Order` row (`models.py` lines 31-52) together with
its cascading `order_items`.  `id` is the storage row id, `order_id` the
stable UUID handle (both modelled as `ℕ`). -/
structure POrder where
  id : ℕ
  order_id : ℕ
  customer : ℕ
  delivery_date : ℤ
  from_date : Option ℤ
  to_date : Option ℤ
  subscription_type : ℕ
  halbe_channel : Bool
  is_future : Bool
  items : List OItemRow
deriving DecidableEq, Repr

/-- The edit scope chosen in the order edit dialog (`weekly_view.py` lines
897-903): radio value `current` becomes `only_this`, `future` becomes
`this_and_future`. -/
inductive Scope where
  | only_this : Scope
  | this_and_future : Scope
deriving DecidableEq, Repr

/-- The validated form input of `save_changes` for an existing order:
parsed delivery date, parsed window (already `none` when no subscription),
cadence code, channel flag and the validated `(item, amount)` rows. -/
structure EditInput where
  new_date : ℤ
  from_date : Option ℤ
  to_date : Option ℤ
  sub : ℕ
  halbe : Bool
  items : List (Item × ℚ)
deriving DecidableEq, Repr

/-- The line-item rows recreated for the edited order (`weekly_view.py`
lines 933-944): `production_date = new_date - total_days` (no Sunday
branch) and `transfer_date = production_date + germination_days`. -/
def mkEditedItems (new_date : ℤ) (its : List (Item × ℚ)) : List OItemRow :=
  its.map (fun p =>
    { item := p.1
      amount := p.2
      production_date := new_date - (p.1.total_days : ℤ)
      transfer_date := new_date - (p.1.total_days : ℤ) + (p.1.germination_days : ℤ) })

/-- The in-place mutation of the edited order in `save_changes`
(`weekly_view.py` lines 912-969): overwrite the fields with the form
values, replace the line items wholesale, then apply the detach check of
lines 947-965 — under scope `only_this`, detach (cadence reset to 0 and
window cleared) when the cadence code changed, or when the delivery date
changed at all while the original cadence code was nonzero. -/
def applyEditFields (orig : POrder) (e : EditInput) (scope : Scope) : POrder :=
  let base : POrder :=
    { orig with
      delivery_date := e.new_date
      from_date := e.from_date
      to_date := e.to_date
      subscription_type := e.sub
      halbe_channel := e.halbe
      items := mkEditedItems e.new_date e.items }
  if scope = Scope.only_this ∧
      (e.sub ≠ orig.subscription_type ∨
        (e.new_date ≠ orig.delivery_date ∧ 0 < orig.subscription_type)) then
    { base with subscription_type := 0, from_date := none, to_date := none }
  else
    base

/-- The `(item, amount)` pairs as unsaved temp items. -/
def tempItemsOfInput (its : List (Item × ℚ)) : List TempItem :=
  its.map (fun p => ⟨p.1, p.2⟩)

/-- View a persisted order (plus its in-memory `production_date`
attribute) as the argument of `generate_subscription_orders`. -/
def toSeed (o : POrder) (pdict : Option (List (TempItem × ℤ))) : SeedOrder :=
  { customer := o.customer
    delivery_date := o.delivery_date
    from_date := o.from_date
    to_date := o.to_date
    subscription_type := o.subscription_type
    halbe_channel := o.halbe_channel
    production_date := pdict
    order_items := o.items.map (fun r => ⟨r.item, r.amount⟩) }

/-- `Order.create(**future_data, order_id = uuid)` plus the item-copy loop
(`weekly_view.py` lines 1013-1029): line items are copied from the source
order with `production_date = future_delivery - total_days` and
`transfer_date = production_date + germination_days`. -/
def mkFutureOrder (rowId : ℕ) (d : DraftOrder) (src : POrder) : POrder :=
  { id := rowId
    order_id := rowId
    customer := d.customer
    delivery_date := d.delivery_date
    from_date := d.from_date
    to_date := d.to_date
    subscription_type := d.subscription_type
    halbe_channel := d.halbe_channel
    is_future := d.is_future
    items := src.items.map (fun r =>
      { item := r.item
        amount := r.amount
        production_date := d.delivery_date - (r.item.total_days : ℤ)
        transfer_date := d.delivery_date - (r.item.total_days : ℤ)
          + (r.item.germination_days : ℤ) }) }

/-- The creation loop for regenerated future orders (`weekly_view.py`
lines 1004-1031): each draft is created only when no order with the same
customer, delivery date and window already exists; fresh storage ids come
from `freshIds`. -/
def createFutures (db : List POrder) (src : POrder) :
    List DraftOrder → List ℕ → List POrder
  | [], _ => db
  | d :: ds, freshIds =>
      if (db.filter (fun o =>
          o.customer = src.customer ∧ o.delivery_date = d.delivery_date ∧
          o.from_date = d.from_date ∧ o.to_date = d.to_date)).isEmpty then
        createFutures (db ++ [mkFutureOrder (freshIds.headD 0) d src]) src ds
          freshIds.tail
      else
        createFutures db src ds freshIds

/-- The commit phase of `save_changes` for an existing order
(`weekly_view.py` lines 905-1034), inside `db.atomic()`:
update the edited order (`applyEditFields`); under scope
`this_and_future` with a nonzero new cadence, delete every order of the
same customer matching the *original* window/cadence tuple with
`delivery_date` strictly after the original delivery date (other than the
edited row), then regenerate from the updated order, keeping only drafts
after the original delivery date.  A `KeyError` from the cadence table
aborts the transaction: the pre-state is returned unchanged. -/
def save_changes_edit (db : List POrder) (orig : POrder) (e : EditInput)
    (scope : Scope) (freshIds : List ℕ) : List POrder :=
  let order_obj := applyEditFields orig e scope
  let db1 := db.map (fun o => if o.id = orig.id then order_obj else o)
  match scope with
  | Scope.only_this => db1
  | Scope.this_and_future =>
      if 0 < e.sub then
        let db2 := db1.filter (fun o =>
          ¬(o.customer = orig.customer ∧ o.from_date = orig.from_date ∧
            o.to_date = orig.to_date ∧
            o.subscription_type = orig.subscription_type ∧
            orig.delivery_date < o.delivery_date ∧ o.id ≠ orig.id))
        if 0 < order_obj.subscription_type ∧ order_obj.from_date ≠ none ∧
            order_obj.to_date ≠ none then
          let seed := toSeed order_obj
            (some (calculate_itemwise_production_dates e.new_date
              (tempItemsOfInput e.items)))
          match generate_subscription_orders seed with
          | none => db
          | some fos =>
              createFutures db2 order_obj
                (fos.filter (fun fo => orig.delivery_date < fo.delivery_date))
                freshIds
        else
          db2
      else
        db1

/-- `delete_order` with scope `this_and_future` (`weekly_view.py` lines
1203-1251): query the same customer's orders with `delivery_date >=
today`, keep those with the target's delivery weekday and the same set of
item ids, and delete exactly those matches (cascading line items). -/
def delete_order_this_and_future (db : List POrder) (target : POrder)
    (today : ℤ) : List POrder :=
  let current_weekday := pyWeekday target.delivery_date
  let current_order_items := (target.items.map (fun r => r.item.id)).toFinset
  let future_orders_query := db.filter (fun o =>
    o.customer = target.customer ∧ today ≤ o.delivery_date)
  let matching_orders := future_orders_query.filter (fun o =>
    pyWeekday o.delivery_date = current_weekday ∧
    (o.items.map (fun r => r.item.id)).toFinset = current_order_items)
  db.filter (fun o => o ∉ matching_orders)

/-- `delete_order` with scope `only_this` (`weekly_view.py` line 1201):
delete the one row, cascading its line items. -/
def delete_order_single (db : List POrder) (target : POrder) : List POrder :=
  db.filter (fun o => o.id ≠ target.id)

/-- The `ACTION_CREATE_ORDER` branch of `undo_last_action`
(`main.py` lines 197-220): look the created order up by its stable
`order_id`; if it carries a subscription window and nonzero cadence,
delete every order of that customer with the same window, otherwise
delete by `order_id`. -/
def undo_create_order (db : List POrder) (order_id : ℕ) : List POrder :=
  match db.find? (fun o => o.order_id = order_id) with
  | none => db
  | some main_order =>
      if main_order.from_date ≠ none ∧ main_order.to_date ≠ none ∧
          0 < main_order.subscription_type then
        db.filter (fun o =>
          ¬(o.from_date = main_order.from_date ∧
            o.to_date = main_order.to_date ∧
            o.customer = main_order.customer))
      else
        db.filter (fun o => o.order_id ≠ order_id)

/-- The future-order creation loop of `save_order` (`main.py` lines
1909-1929): one row per generated draft, items copied with recomputed
dates. -/
def buildFutures (src : POrder) : List DraftOrder → List ℕ → List POrder
  | [], _ => []
  | d :: ds, freshIds =>
      mkFutureOrder (freshIds.headD 0) d src :: buildFutures src ds freshIds.tail

/-- The seed `Order.create` row of `save_order` (`main.py` lines
1874-1884) with its line items (lines 1892-1905). -/
def mkSeedOrderRow (u0 customer : ℕ) (delivery_date : ℤ)
    (from_date to_date : Option ℤ) (sub : ℕ) (halbe : Bool)
    (its : List (Item × ℚ)) : POrder :=
  { id := u0
    order_id := u0
    customer := customer
    delivery_date := delivery_date
    from_date := from_date
    to_date := to_date
    subscription_type := sub
    halbe_channel := halbe
    is_future := false
    items := mkEditedItems delivery_date its }

/-- Order creation in `save_order` (`main.py` lines 1869-1929), inside
`db.atomic()`: create the seed order (window bounds only kept when the
cadence is nonzero, lines 1878-1879; its in-memory `production_date` is a
single date, so the generator sees no dict), then, for a nonzero cadence,
create one future order per generated draft.  Returns the new store and
the `created_orders` list, or `none` when the generator raises
(transaction rollback). -/
def save_order_create (db : List POrder) (customer : ℕ) (delivery_date : ℤ)
    (fromRaw toRaw : Option ℤ) (sub : ℕ) (halbe : Bool)
    (its : List (Item × ℚ)) (u0 : ℕ) (freshIds : List ℕ) :
    Option (List POrder × List POrder) :=
  let order : POrder := mkSeedOrderRow u0 customer delivery_date
    (if 0 < sub then fromRaw else none) (if 0 < sub then toRaw else none)
    sub halbe its
  if 0 < sub then
    match generate_subscription_orders (toSeed order none) with
    | none => none
    | some fos =>
        let futures := buildFutures order fos freshIds
        some (db ++ order :: futures, order :: futures)
  else
    some (db ++ [order], [order])

/-- `serialize_order` (`main.py` lines 652-683): the undo snapshot of an
order — every field plus `(item_id, amount)` per line item. -/
structure OrderSnapshot where
  id : ℕ
  order_id : ℕ
  customer_id : ℕ
  delivery_date : ℤ
  from_date : Option ℤ
  to_date : Option ℤ
  subscription_type : ℕ
  halbe_channel : Bool
  is_future : Bool
  order_items : List (ℕ × ℚ)
deriving DecidableEq, Repr

def serialize_order (o : POrder) : OrderSnapshot :=
  { id := o.id
    order_id := o.order_id
    customer_id := o.customer
    delivery_date := o.delivery_date
    from_date := o.from_date
    to_date := o.to_date
    subscription_type := o.subscription_type
    halbe_channel := o.halbe_channel
    is_future := o.is_future
    order_items := o.items.map (fun r => (r.item.id, r.amount)) }

/-- The item-recreation loop of `recreate_order_from_data`
(`main.py` lines 366-379): resolve each `item_id` in the catalog
(`Item.get`, raising when absent → `none`), recompute
`production_date = delivery_date - total_days` and
`transfer_date = production_date + germination_days`. -/
def resolveSnapshotItems (catalog : List Item) (delivery_date : ℤ) :
    List (ℕ × ℚ) → Option (List OItemRow)
  | [] => some []
  | (item_id, amount) :: rest =>
      match catalog.find? (fun it => it.id = item_id) with
      | none => none
      | some it =>
          match resolveSnapshotItems catalog delivery_date rest with
          | none => none
          | some l =>
              some ({ item := it
                      amount := amount
                      production_date := delivery_date - (it.total_days : ℤ)
                      transfer_date := delivery_date - (it.total_days : ℤ)
                        + (it.germination_days : ℤ) } :: l)

/-- Rebuild an order row from a snapshot under a given storage row id
(the snapshot's `id` field is popped, `main.py` lines 333-335). -/
def rebuildInto (rowId : ℕ) (snap : OrderSnapshot) (newItems : List OItemRow) :
    POrder :=
  { id := rowId
    order_id := snap.order_id
    customer := snap.customer_id
    delivery_date := snap.delivery_date
    from_date := snap.from_date
    to_date := snap.to_date
    subscription_type := snap.subscription_type
    halbe_channel := snap.halbe_channel
    is_future := snap.is_future
    items := newItems }

/-- `recreate_order_from_data` for a single snapshot (`main.py` lines
317-383), inside `db.atomic()`: if an order with the snapshot's
`order_id` still exists, update it in place (replacing its items), else
create a new row under a fresh id; `none` models the exception (and
rollback) when an item id cannot be resolved. -/
def recreate_order_from_data (catalog : List Item) (db : List POrder)
    (snap : OrderSnapshot) (freshId : ℕ) : Option (List POrder) :=
  match resolveSnapshotItems catalog snap.delivery_date snap.order_items with
  | none => none
  | some newItems =>
      match db.find? (fun o => o.order_id = snap.order_id) with
      | some _ =>
          some (db.map (fun o =>
            if o.order_id = snap.order_id then rebuildInto o.id snap newItems
            else o))
      | none => some (db ++ [rebuildInto freshId snap newItems])

/-- The cadence-label strings checked against amount fields
(`weekly_view.py` line 873, `main.py` line 1199). -/
def subscription_type_strings : List String :=
  ["Wöchentlich", "Zweiwöchentlich", "Alle 3 Wochen", "Alle 4 Wochen",
   "Kein Abonnement"]

/-- Numeric value of a digit string. -/
def digitsVal (cs : List Char) : ℕ :=
  cs.foldl (fun n c => 10 * n + (c.toNat - '0'.toNat)) 0

/-- Model of Python `float(s)` on the decimal literals the amount fields
carry: optional sign, digits with at most one decimal point (at least one
digit overall).  Exponent, `inf`/`nan` and underscore forms are omitted;
none of the inputs the claims are about take those shapes. -/
def pyFloat? (s : String) : Option ℚ :=
  let signBody : ℚ × String :=
    if s.startsWith "-" then (-1, s.drop 1)
    else if s.startsWith "+" then (1, s.drop 1)
    else (1, s)
  match (signBody.2.splitOn ".").map String.data with
  | [intPart] =>
      if intPart ≠ [] ∧ intPart.all Char.isDigit then
        some (signBody.1 * (digitsVal intPart : ℚ))
      else none
  | [intPart, fracPart] =>
      if intPart ++ fracPart ≠ [] ∧ (intPart ++ fracPart).all Char.isDigit then
        some (signBody.1 * ((digitsVal intPart : ℚ)
          + (digitsVal fracPart : ℚ) / (10 ^ fracPart.length)))
      else none
  | _ => none

/-- `amount_str.replace(',', '.')` (`weekly_view.py` line 879,
`main.py` line 1203). -/
def replaceCommas (s : String) : String :=
  s.map (fun c => if c = ',' then '.' else c)

/-- The f-string of `weekly_view.py` line 875 / `main.py` line 1200. -/
def amount_error_subscription (amount_str item_name : String) : String :=
  "Ungültige Menge: \x27" ++ amount_str ++
    "\x27 scheint ein Abonnementtyp zu sein statt einer Zahl für Artikel " ++
    item_name

/-- The f-string of `weekly_view.py` line 888 / `main.py` line 1214. -/
def amount_error_parse (item_name : String) : String :=
  "Ungültige Menge für Artikel " ++ item_name ++
    ". Bitte geben Sie eine Zahl ein."

/-- The f-string of `weekly_view.py` line 885 / `main.py` line 1209. -/
def amount_error_nonpositive (item_name : String) : String :=
  "Menge muss größer als 0 sein für Artikel " ++ item_name

/-- `validate_amount(amount_str, item_name)` (`main.py` lines 1196-1214):
cadence-label check first, then comma normalisation, float conversion and
the positivity check; `Sum.inl` carries the error message. -/
def validate_amount (amount_str item_name : String) : String ⊕ ℚ :=
  if amount_str ∈ subscription_type_strings then
    Sum.inl (amount_error_subscription amount_str item_name)
  else
    match pyFloat? (replaceCommas amount_str) with
    | some amount =>
        if amount ≤ 0 then Sum.inl (amount_error_nonpositive item_name)
        else Sum.inr amount
    | none => Sum.inl (amount_error_parse item_name)

/-- Python `str.strip()`: drop leading and trailing whitespace. -/
def pyStrip (s : String) : String :=
  ⟨((s.data.dropWhile Char.isWhitespace).reverse.dropWhile
      Char.isWhitespace).reverse⟩

/-- The item-row validation loop of `save_changes` (`weekly_view.py`
lines 864-895): per row, strip, cadence-label check, comma normalisation,
float conversion with positivity check, then item-name resolution; the
first failure aborts with its message. -/
def gather_order_items (items_catalog : List Item) :
    List (String × String) → String ⊕ List (Item × ℚ)
  | [] => Sum.inr []
  | (item_name, raw) :: rest =>
      let amount_str := pyStrip raw
      if amount_str ∈ subscription_type_strings then
        Sum.inl (amount_error_subscription amount_str item_name)
      else
        match pyFloat? (replaceCommas amount_str) with
        | some amount =>
            if amount ≤ 0 then Sum.inl (amount_error_nonpositive item_name)
            else
              match items_catalog.find? (fun it => it.name = item_name) with
              | none => Sum.inl ("Ungültiger Artikel: " ++ item_name)
              | some it =>
                  match gather_order_items items_catalog rest with
                  | Sum.inl e => Sum.inl e
                  | Sum.inr l => Sum.inr ((it, amount) :: l)
        | none => Sum.inl (amount_error_parse item_name)

/-- `save_changes` for an existing order, validation then commit
(`weekly_view.py` lines 836-1034): any validation failure returns before
the `db.atomic()` block, leaving the store untouched and surfacing the
message; on success the commit runs. -/
def save_changes_model (db : List POrder) (orig : POrder) (new_date : ℤ)
    (from_date to_date : Option ℤ) (sub : ℕ) (halbe : Bool)
    (items_catalog : List Item) (rows : List (String × String))
    (scope : Scope) (freshIds : List ℕ) : List POrder × Option String :=
  match gather_order_items items_catalog rows with
  | Sum.inl err => (db, some err)
  | Sum.inr its =>
      (save_changes_edit db orig
        { new_date := new_date, from_date := from_date, to_date := to_date,
          sub := sub, halbe := halbe, items := its } scope freshIds, none)

/-- One row of the `get_production_plan` join: an `OrderItem` with its
joined `Order` and `Item` (`database.py` lines 90-101). -/
structure OIRow where
  order_delivery_date : ℤ
  item : Item
  amount : ℚ
  production_date : ℤ
  transfer_date : ℤ
deriving DecidableEq, Repr

/-- The SQL grouping key of `get_production_plan`
(`database.py` line 106): `(production_date, Item.name, Item.seed_quantity,
Item.substrate)`. -/
def rowKey (r : OIRow) : ℤ × String × ℚ × Option String :=
  (r.production_date, r.item.name, r.item.seed_quantity, r.item.substrate)

/-- Distinct keys in first-encounter order (one output group per distinct
grouping key; relational semantics fix the groups but not their order, so
this determinises the unspecified pre-sort order as encounter order). -/
def firstOccurrences {α : Type} [DecidableEq α] (seen : List α) :
    List α → List α
  | [] => []
  | k :: ks =>
      if k ∈ seen then firstOccurrences seen ks
      else k :: firstOccurrences (k :: seen) ks

/-- One result row of `get_production_plan`: grouping key plus
`SUM(amount)`. -/
structure PlanRow where
  production_date : ℤ
  item_name : String
  seed_quantity : ℚ
  substrate : Option String
  total_amount : ℚ
deriving DecidableEq, Repr

/-- `database.get_production_plan(start_date, end_date)` (`database.py`
lines 83-131): keep the order items whose `production_date` lies in the
inclusive window, group by `(production_date, name, seed_quantity,
substrate)` summing the amounts, and sort by `production_date` — the one
`ORDER BY` key the query requests (line 107).  The sort is stable, so
rows with equal production dates keep the unspecified group order. -/
def get_production_plan (rows : List OIRow) (start_date end_date : ℤ) :
    List PlanRow :=
  let inWin := rows.filter (fun r =>
    start_date ≤ r.production_date ∧ r.production_date ≤ end_date)
  let keys := firstOccurrences [] (inWin.map rowKey)
  let grouped := keys.map (fun k =>
    { production_date := k.1
      item_name := k.2.1
      seed_quantity := k.2.2.1
      substrate := k.2.2.2
      total_amount :=
        ((inWin.filter (fun r => rowKey r = k)).map (fun r => r.amount)).sum
      : PlanRow })
  grouped.insertionSort (fun a b => a.production_date ≤ b.production_date)

/-- `needle` occurs inside `haystack` (the error message mentions it). -/
def mentions (needle haystack : String) : Prop :=
  needle.data <:+: haystack.data

/-- A catalog item with zero growth time (production on the delivery
day), used as concrete test data. -/
def itemZero : Item :=
  { id := 1, name := "Kresse", seed_quantity := 0, soaking_days := 0,
    germination_days := 0, growth_days := 0, price := 0, substrate := none }

/-- A catalog item with 2 germination + 4 growth days. -/
def itemSix : Item :=
  { id := 2, name := "Basilikum", seed_quantity := 1, soaking_days := 1,
    germination_days := 2, growth_days := 4, price := 3,
    substrate := some "Erde" }

/-- Weekly seed order, delivery day 0 (a Monday), window `[0, 30]`, no
stored production dict, no items. -/
def seedW : SeedOrder :=
  { customer := 0, delivery_date := 0, from_date := some 0,
    to_date := some 30, subscription_type := 1, halbe_channel := false,
    production_date := none, order_items := [] }

/-- Biweekly order whose `from_date` is missing. -/
def seedNoWindow : SeedOrder :=
  { customer := 0, delivery_date := 0, from_date := none,
    to_date := some 30, subscription_type := 2, halbe_channel := false,
    production_date := none, order_items := [] }

/-- Weekly seed whose stored per-item production date fell on a Sunday
(day 6): delivery day 6, item with zero growth time, window `[0, 20]`. -/
def seedSunday : SeedOrder :=
  { customer := 0, delivery_date := 6, from_date := some 0,
    to_date := some 20, subscription_type := 1, halbe_channel := false,
    production_date := some [(⟨itemZero, 2⟩, 6)],
    order_items := [⟨itemZero, 2⟩] }

/-- A persisted weekly subscription order: delivery day 0, window
`[0, 28]`. -/
def origWeekly : POrder :=
  { id := 10, order_id := 100, customer := 0, delivery_date := 0,
    from_date := some 0, to_date := some 28, subscription_type := 1,
    halbe_channel := false, is_future := false, items := [] }

/-- An `only_this` edit of `origWeekly` that keeps the weekly cadence and
moves the delivery date exactly one cadence step later — still on the
series' weekly pattern. -/
def editOnPattern : EditInput :=
  { new_date := 7, from_date := some 0, to_date := some 28, sub := 1,
    halbe := false, items := [] }

/-- A sibling of `origWeekly` one week earlier than nothing — a
non-series order of another customer used as frame data. -/
def otherOrder : POrder :=
  { id := 11, order_id := 101, customer := 1, delivery_date := -7,
    from_date := none, to_date := none, subscription_type := 0,
    halbe_channel := true, is_future := false,
    items := [{ item := itemSix, amount := 2, production_date := -13,
                transfer_date := -11 }] }

/-- Production-plan row: item named "B", production day 3, inserted
first. -/
def rowNameB : OIRow :=
  { order_delivery_date := 5,
    item := { id := 3, name := "B", seed_quantity := 0, soaking_days := 0,
              germination_days := 1, growth_days := 1, price := 0,
              substrate := none },
    amount := 1, production_date := 3, transfer_date := 4 }

/-- Production-plan row: item named "A", production day 3, inserted
second. -/
def rowNameA : OIRow :=
  { order_delivery_date := 5,
    item := { id := 4, name := "A", seed_quantity := 0, soaking_days := 0,
              germination_days := 1, growth_days := 1, price := 0,
              substrate := none },
    amount := 2, production_date := 3, transfer_date := 4 }

/-- The seed row `save_order_create` builds for a weekly subscription with
window `[0, 14]`, no items, stable id 5. -/
def orderC7 : POrder :=
  mkSeedOrderRow 5 0 0 (some 0) (some 14) 1 false []

/-- A stored one-off order with one `itemSix` line item. -/
def xOrderC7 : POrder :=
  { id := 30, order_id := 300, customer := 2, delivery_date := 10,
    from_date := none, to_date := none, subscription_type := 0,
    halbe_channel := true, is_future := false,
    items := [{ item := itemSix, amount := 2, production_date := 4,
                transfer_date := 6 }] }

theorem genLoop_eq_range (o : SeedOrder) (delta : ℕ) (toD : ℤ)
    (hd : 0 < delta) :
    ∀ (n : ℕ) (current : ℤ), (toD + 1 - current).toNat ≤ n →
      genLoop o delta toD current =
        (List.range (loopCount delta toD current)).map
          (fun k : ℕ => mkDraft o (current + (k : ℤ) * (delta : ℤ))) := by
  intro n
  induction n with
  | zero =>
      intro current h
      have hc : ¬ current ≤ toD := by omega
      rw [genLoop, dif_neg (fun hx => hc hx.2)]
      simp [loopCount, hc]
  | succ n ih =>
      intro current h
      rw [genLoop]
      by_cases hc : current ≤ toD
      · rw [dif_pos ⟨hd, hc⟩]
        rw [ih (current + delta) (by omega)]
        have hcount : loopCount delta toD current
            = loopCount delta toD (current + delta) + 1 := by
          unfold loopCount
          rw [if_pos hc]
          by_cases hc2 : current + (delta : ℤ) ≤ toD
          · rw [if_pos hc2]
            have h2 : (toD - (current + delta)).toNat
                = (toD - current).toNat - delta := by omega
            have h4 : (toD - current).toNat - delta + delta
                = (toD - current).toNat := by omega
            have h5 := Nat.add_div_right ((toD - current).toNat - delta) hd
            rw [h4] at h5
            rw [h2, ← h5]
          · rw [if_neg hc2]
            have h1 : (toD - current).toNat < delta := by omega
            rw [Nat.div_eq_of_lt h1]
        rw [hcount, List.range_succ_eq_map]
        simp only [List.map_cons, List.map_map]
        congr 1
        · norm_num
        · apply List.map_congr_left
          intro k _
          simp only [Function.comp_apply]
          congr 1
          push_cast
          ring
      · rw [dif_neg (fun hx => hc hx.2)]
        simp [loopCount, hc]

/-- Closed form of the generation loop. -/
theorem genLoop_closed (o : SeedOrder) (delta : ℕ) (toD current : ℤ)
    (hd : 0 < delta) :
    genLoop o delta toD current =
      (List.range (loopCount delta toD current)).map
        (fun k : ℕ => mkDraft o (current + (k : ℤ) * (delta : ℤ))) :=
  genLoop_eq_range o delta toD hd (toD + 1 - current).toNat current le_rfl

/-- C1: for a seed order with cadence code in `{1,2,3,4}` (cadence days
`delta` per the frequency table), both window bounds present and
`delivery_date ≤ to_date`, the expansion returns exactly
`(to_date - delivery_date).toNat / delta` drafts, the k-th (0-based) at
`delivery_date + (k+1)*delta`, consecutive drafts exactly `delta` apart,
none past `to_date`; cadence code 0 always yields the empty list. -/
theorem subscription_expansion_spec
    (o : SeedOrder) (delta : ℕ) (t : ℤ)
    (hfreq : frequencies o.subscription_type = some delta)
    (hfrom : o.from_date ≠ none)
    (hto : o.to_date = some t)
    (hle : o.delivery_date ≤ t) :
    (∃ L, generate_subscription_orders o = some L
      ∧ L.length = (t - o.delivery_date).toNat / delta
      ∧ (∀ k : Fin L.length,
          (L.get k).delivery_date
            = o.delivery_date + (((k : ℕ) : ℤ) + 1) * (delta : ℤ))
      ∧ (∀ k : Fin L.length, (L.get k).delivery_date ≤ t)
      ∧ (∀ (k : ℕ) (hk : k + 1 < L.length),
          (L.get ⟨k + 1, hk⟩).delivery_date
            = (L.get ⟨k, Nat.lt_of_succ_lt hk⟩).delivery_date + (delta : ℤ)))
    ∧ (∀ o2 : SeedOrder, o2.subscription_type = 0 →
        generate_subscription_orders o2 = some []) := by
  constructor
  · have hd : 0 < delta := by
      unfold frequencies at hfreq
      split at hfreq <;> simp_all <;> omega
    have hsub : ¬ o.subscription_type = 0 := by
      intro h0
      rw [h0] at hfreq
      simp [frequencies] at hfreq
    have hgen : generate_subscription_orders o
        = some (genLoop o delta t (o.delivery_date + delta)) := by
      have hcond : ¬(o.subscription_type = 0 ∨ o.from_date = none ∨
          o.to_date = none) := by
        push_neg
        exact ⟨hsub, hfrom, by rw [hto]; simp⟩
      unfold generate_subscription_orders
      rw [if_neg hcond, hfreq, hto]
    rw [genLoop_closed o delta t (o.delivery_date + delta) hd] at hgen
    set n := loopCount delta t (o.delivery_date + delta) with hn
    set L := (List.range n).map
      (fun k : ℕ => mkDraft o (o.delivery_date + delta + (k : ℤ) * (delta : ℤ)))
      with hL
    have hnval : n = (t - o.delivery_date).toNat / delta := by
      rw [hn]
      unfold loopCount
      by_cases hc : o.delivery_date + (delta : ℤ) ≤ t
      · rw [if_pos hc]
        have h2 : (t - (o.delivery_date + delta)).toNat
            = (t - o.delivery_date).toNat - delta := by omega
        have h4 : (t - o.delivery_date).toNat - delta + delta
            = (t - o.delivery_date).toNat := by omega
        have h5 := Nat.add_div_right ((t - o.delivery_date).toNat - delta) hd
        rw [h4] at h5
        rw [h2, ← h5]
      · rw [if_neg hc]
        have h1 : (t - o.delivery_date).toNat < delta := by omega
        rw [Nat.div_eq_of_lt h1]
    have hlen : L.length = n := by simp [hL]
    have hget : ∀ (k : ℕ) (hk : k < L.length),
        (L.get ⟨k, hk⟩).delivery_date
          = o.delivery_date + ((k : ℤ) + 1) * (delta : ℤ) := by
      intro k hk
      simp only [hL, List.get_eq_getElem, List.getElem_map, List.getElem_range,
        mkDraft]
      ring
    refine ⟨L, hgen, by rw [hlen, hnval], ?_, ?_, ?_⟩
    · intro k
      exact hget k.1 k.2
    · intro k
      rw [hget k.1 k.2]
      have hkn : (k : ℕ) < n := by rw [← hlen]; exact k.2
      have hkd : (k : ℕ) + 1 ≤ (t - o.delivery_date).toNat / delta := by omega
      have hmul : ((k : ℕ) + 1) * delta ≤ (t - o.delivery_date).toNat :=
        (Nat.le_div_iff_mul_le hd).mp hkd
      have hcast : ((((k : ℕ) + 1) * delta : ℕ) : ℤ)
          ≤ (((t - o.delivery_date).toNat : ℕ) : ℤ) := by exact_mod_cast hmul
      have htn : (((t - o.delivery_date).toNat : ℕ) : ℤ)
          = t - o.delivery_date := Int.toNat_of_nonneg (by omega)
      rw [htn] at hcast
      push_cast at hcast
      linarith
    · intro k hk
      rw [hget (k + 1) hk, hget k (Nat.lt_of_succ_lt hk)]
      push_cast
      ring
  · intro o2 h0
    unfold generate_subscription_orders
    rw [if_pos (Or.inl h0)]

/-- Witness for C1: the weekly seed `seedW` (delivery day 0, window
`[0, 30]`) expands to `(30 - 0) / 7 = 4` drafts. -/
theorem subscription_expansion_spec_witness :
    seedW.delivery_date ≤ 30 ∧
    ∃ L, generate_subscription_orders seedW = some L ∧
      L.length = ((30 : ℤ) - seedW.delivery_date).toNat / 7 := by
  refine ⟨by decide, ?_⟩
  obtain ⟨⟨L, h1, h2, -⟩, -⟩ :=
    subscription_expansion_spec seedW 7 30 rfl (by simp [seedW]) rfl (by decide)
  exact ⟨L, h1, h2⟩

/-- C10: an order missing `from_date` or `to_date` expands to the empty
list, regardless of its cadence code (`database.py` lines 21-22). -/
theorem generate_without_window_is_empty (o : SeedOrder)
    (h : o.from_date = none ∨ o.to_date = none) :
    generate_subscription_orders o = some [] := by
  unfold generate_subscription_orders
  rcases h with h | h
  · rw [if_pos (Or.inr (Or.inl h))]
  · rw [if_pos (Or.inr (Or.inr h))]

/-- Witness for C10: `seedNoWindow` has a nonzero cadence code (2) but no
`from_date`, and expands to `[]`. -/
theorem generate_without_window_is_empty_witness :
    seedNoWindow.from_date = none ∧ seedNoWindow.subscription_type = 2 ∧
    generate_subscription_orders seedNoWindow = some [] :=
  ⟨rfl, rfl, generate_without_window_is_empty seedNoWindow (Or.inl rfl)⟩

/-- C4 counterexample: with the code's default flag (`allow_sunday =
true`, i.e. Sunday-avoidance inactive), a production date landing on
Sunday is kept: delivery day 6 (a Sunday) with a zero-growth item yields
production day 6, not the Saturday 5 the claim's
"avoidance active by default" reading would demand. -/
theorem production_date_default_keeps_sunday :
    calculate_itemwise_production_dates 6 [⟨itemZero, 1⟩]
      = [(⟨itemZero, 1⟩, 6)]
    ∧ pyWeekday (6 - (itemZero.total_days : ℤ)) = 6
    ∧ (6 : ℤ) ≠ 6 - (itemZero.total_days : ℤ) - 1 := by
  refine ⟨?_, by decide, by decide⟩
  decide

/-- C4 amended: `production_date = delivery - (g + w)` and, when
Sunday-avoidance is requested (`allow_sunday = false` — with the code the
flag defaults to `true`, i.e. no avoidance), a Sunday result is shifted
one day earlier to Saturday and the result is never a Sunday; the
transfer date is the production date plus the germination days. -/
theorem production_date_rule (delivery : ℤ) (it : Item) (amount : ℚ)
    (allow_sunday : Bool) :
    ∃ p, calculate_itemwise_production_dates delivery [⟨it, amount⟩]
        allow_sunday = [(⟨it, amount⟩, p)]
      ∧ (allow_sunday = true → p = delivery - (it.total_days : ℤ))
      ∧ (allow_sunday = false →
          pyWeekday (delivery - (it.total_days : ℤ)) = 6 →
          p = delivery - (it.total_days : ℤ) - 1)
      ∧ (allow_sunday = false →
          pyWeekday (delivery - (it.total_days : ℤ)) ≠ 6 →
          p = delivery - (it.total_days : ℤ))
      ∧ (allow_sunday = false → pyWeekday p ≠ 6)
      ∧ transfer_date_for p it = p + (it.germination_days : ℤ) := by
  cases allow_sunday with
  | true =>
      refine ⟨delivery - (it.total_days : ℤ), ?_, fun _ => rfl, by simp,
        by simp, by simp, rfl⟩
      simp [calculate_itemwise_production_dates]
  | false =>
      by_cases hw : pyWeekday (delivery - (it.total_days : ℤ)) = 6
      · refine ⟨delivery - (it.total_days : ℤ) - 1, ?_, by simp,
          fun _ _ => rfl, fun _ h => absurd hw h, fun _ => ?_, rfl⟩
        · simp [calculate_itemwise_production_dates, hw]
        · unfold pyWeekday at hw ⊢
          omega
      · refine ⟨delivery - (it.total_days : ℤ), ?_, by simp,
          fun _ h => absurd h hw, fun _ _ => rfl, fun _ => hw, rfl⟩
        simp [calculate_itemwise_production_dates, hw]

/-- Witness for C4 amended: delivery day 6, zero-growth item,
`allow_sunday = false`: the Sunday result 6 is shifted to Saturday 5. -/
theorem production_date_rule_witness :
    pyWeekday (6 - (itemZero.total_days : ℤ)) = 6 ∧
    ∃ p, calculate_itemwise_production_dates 6 [⟨itemZero, 1⟩] false
        = [(⟨itemZero, 1⟩, p)]
      ∧ (false = false → pyWeekday (6 - (itemZero.total_days : ℤ)) = 6 →
          p = 6 - (itemZero.total_days : ℤ) - 1) := by
  refine ⟨by decide, ?_⟩
  obtain ⟨p, h1, -, h3, -⟩ := production_date_rule 6 itemZero 1 false
  exact ⟨p, h1, h3⟩

/-- C3 (code bug): the generator's Sunday flag is inverted.  For
`seedSunday`, whose stored seed production date 6 IS a Sunday (the seed
was evidently allowed to produce on Sunday), `database.py` line 41
computes `allow_sunday = (weekday != 6) = false`, so both generated
instances (delivery days 13 and 20, raw production dates 13 and 20, both
Sundays) are shifted to Saturdays 12 and 19 — the opposite of the sticky
allowance that line 38's own comment and the spec require. -/
theorem sunday_allowance_inverted :
    seedAllowSunday seedSunday = false
    ∧ pyWeekday 6 = 6
    ∧ (generate_subscription_orders seedSunday).map
        (fun L => L.map (fun d => d.production_date.map Prod.snd))
        = some [[12], [19]]
    ∧ pyWeekday 12 = 5 ∧ pyWeekday 19 = 5 := by
  have hg : generate_subscription_orders seedSunday
      = some (genLoop seedSunday 7 20 13) := rfl
  have hc := genLoop_closed seedSunday 7 20 13 (by norm_num)
  refine ⟨rfl, rfl, ?_, rfl, rfl⟩
  rw [hg, hc]
  decide

lemma mem_createFutures_of_mem (src : POrder) :
    ∀ (ds : List DraftOrder) (freshIds : List ℕ) (db : List POrder)
      (o : POrder), o ∈ db → o ∈ createFutures db src ds freshIds := by
  intro ds
  induction ds with
  | nil =>
      intro freshIds db o h
      simpa [createFutures] using h
  | cons d ds ih =>
      intro freshIds db o h
      rw [createFutures]
      split
      · exact ih freshIds.tail (db ++ [mkFutureOrder (freshIds.headD 0) d src])
          o (List.mem_append_left _ h)
      · exact ih freshIds db o h

lemma mem_createFutures_elim (src : POrder) :
    ∀ (ds : List DraftOrder) (freshIds : List ℕ) (db : List POrder)
      (o : POrder), o ∈ createFutures db src ds freshIds →
      o ∈ db ∨ ∃ i d, d ∈ ds ∧ o = mkFutureOrder i d src := by
  intro ds
  induction ds with
  | nil =>
      intro freshIds db o h
      rw [createFutures] at h
      exact Or.inl h
  | cons d ds ih =>
      intro freshIds db o h
      rw [createFutures] at h
      split at h
      · rcases ih _ _ _ h with hdb | ⟨i, d2, hd2, rfl⟩
        · rcases List.mem_append.mp hdb with hdb | hone
          · exact Or.inl hdb
          · exact Or.inr ⟨freshIds.headD 0, d, List.mem_cons_self d ds,
              (List.mem_singleton.mp hone)⟩
        · exact Or.inr ⟨i, d2, List.mem_cons_of_mem d hd2, rfl⟩
      · rcases ih _ _ _ h with hdb | ⟨i, d2, hd2, rfl⟩
        · exact Or.inl hdb
        · exact Or.inr ⟨i, d2, List.mem_cons_of_mem d hd2, rfl⟩

lemma mem_update_map_of_ne {db : List POrder} {orig u o : POrder}
    (ho : o ∈ db) (hid : o.id ≠ orig.id) :
    o ∈ db.map (fun x => if x.id = orig.id then u else x) :=
  List.mem_map.mpr ⟨o, ho, by rw [if_neg hid]⟩

lemma mem_update_map_elim {db : List POrder} {orig u o : POrder}
    (h : o ∈ db.map (fun x => if x.id = orig.id then u else x)) :
    o ∈ db ∨ o = u := by
  rcases List.mem_map.mp h with ⟨a, ha, he⟩
  by_cases hc : a.id = orig.id
  · rw [if_pos hc] at he
    exact Or.inr he.symm
  · rw [if_neg hc] at he
    exact Or.inl (he ▸ ha)

lemma save_changes_edit_future_mem_intro
    (db : List POrder) (orig : POrder) (e : EditInput) (freshIds : List ℕ)
    (o : POrder) (ho : o ∈ db) (hid : o.id ≠ orig.id)
    (hkeep : ¬(o.customer = orig.customer ∧ o.from_date = orig.from_date ∧
      o.to_date = orig.to_date ∧
      o.subscription_type = orig.subscription_type ∧
      orig.delivery_date < o.delivery_date)) :
    o ∈ save_changes_edit db orig e Scope.this_and_future freshIds := by
  have h1 : o ∈ db.map (fun x =>
      if x.id = orig.id then applyEditFields orig e Scope.this_and_future
      else x) := mem_update_map_of_ne ho hid
  have h2 : o ∈ (db.map (fun x =>
      if x.id = orig.id then applyEditFields orig e Scope.this_and_future
      else x)).filter (fun x =>
      ¬(x.customer = orig.customer ∧ x.from_date = orig.from_date ∧
        x.to_date = orig.to_date ∧
        x.subscription_type = orig.subscription_type ∧
        orig.delivery_date < x.delivery_date ∧ x.id ≠ orig.id)) := by
    refine List.mem_filter.mpr ⟨h1, ?_⟩
    simp only [decide_eq_true_eq]
    intro hc
    exact hkeep ⟨hc.1, hc.2.1, hc.2.2.1, hc.2.2.2.1, hc.2.2.2.2.1⟩
  simp only [save_changes_edit]
  split
  · split
    · split
      · exact ho
      · exact mem_createFutures_of_mem _ _ _ _ _ h2
    · exact h2
  · exact h1

lemma save_changes_edit_future_mem_elim
    (db : List POrder) (orig : POrder) (e : EditInput) (freshIds : List ℕ)
    (o : POrder)
    (h : o ∈ save_changes_edit db orig e Scope.this_and_future freshIds) :
    o ∈ db ∨ o = applyEditFields orig e Scope.this_and_future ∨
      orig.delivery_date < o.delivery_date := by
  simp only [save_changes_edit] at h
  split at h
  · split at h
    · split at h
      · exact Or.inl h
      · rcases mem_createFutures_elim _ _ _ _ _ h with h2 | ⟨i, d, hd, rfl⟩
        · have h3 := (List.mem_filter.mp h2).1
          rcases mem_update_map_elim h3 with h4 | h4
          · exact Or.inl h4
          · exact Or.inr (Or.inl h4)
        · have h3 := (List.mem_filter.mp hd).2
          simp only [decide_eq_true_eq] at h3
          exact Or.inr (Or.inr h3)
    · have h3 := (List.mem_filter.mp h).1
      rcases mem_update_map_elim h3 with h4 | h4
      · exact Or.inl h4
      · exact Or.inr (Or.inl h4)
  · rcases mem_update_map_elim h with h4 | h4
    · exact Or.inl h4
    · exact Or.inr (Or.inl h4)

/-- C2: committing a `this_and_future` edit is anchored at the edited
order's original (pre-edit) delivery date: every stored order other than
the edited row with `delivery_date` strictly before that date survives
with all fields and line items unchanged; a stored order other than the
edited row disappears only if it matches the original series tuple
(customer, window, cadence) with `delivery_date` strictly after the
original date; and everything in the result is an old row, the updated
edited row, or a regenerated draft strictly after the original date. -/
theorem this_and_future_edit_frame
    (db : List POrder) (orig : POrder) (e : EditInput) (freshIds : List ℕ) :
    (∀ o ∈ db, o.id ≠ orig.id → o.delivery_date < orig.delivery_date →
      o ∈ save_changes_edit db orig e Scope.this_and_future freshIds)
    ∧ (∀ o ∈ db, o.id ≠ orig.id →
        o ∉ save_changes_edit db orig e Scope.this_and_future freshIds →
        o.customer = orig.customer ∧ o.from_date = orig.from_date ∧
        o.to_date = orig.to_date ∧
        o.subscription_type = orig.subscription_type ∧
        orig.delivery_date < o.delivery_date)
    ∧ (∀ o ∈ save_changes_edit db orig e Scope.this_and_future freshIds,
        o ∈ db ∨ o = applyEditFields orig e Scope.this_and_future ∨
        orig.delivery_date < o.delivery_date) := by
  refine ⟨?_, ?_, ?_⟩
  · intro o ho hid hlt
    refine save_changes_edit_future_mem_intro db orig e freshIds o ho hid ?_
    intro hc
    omega
  · intro o ho hid hnot
    by_contra hc
    exact hnot (save_changes_edit_future_mem_intro db orig e freshIds o ho hid hc)
  · intro o ho
    exact save_changes_edit_future_mem_elim db orig e freshIds o ho

/-- Witness for C2: a two-order store (the weekly order and an older
order of another customer); the old order, strictly before the edit
point, survives the `this_and_future` commit. -/
theorem this_and_future_edit_frame_witness :
    otherOrder ∈ [origWeekly, otherOrder] ∧
    otherOrder.id ≠ origWeekly.id ∧
    otherOrder.delivery_date < origWeekly.delivery_date ∧
    otherOrder ∈ save_changes_edit [origWeekly, otherOrder] origWeekly
      editOnPattern Scope.this_and_future [77] := by
  refine ⟨by decide, by decide, by decide, ?_⟩
  exact (this_and_future_edit_frame [origWeekly, otherOrder] origWeekly
    editOnPattern [77]).1 otherOrder (by decide) (by decide) (by decide)

/-- C5 amended: under scope `only_this` the committed store replaces just
the edited row by `applyEditFields`, and that row is detached (cadence
reset to 0, window cleared) precisely when the cadence code changed or
the delivery date changed *at all* while the original cadence code was
nonzero — the code (`weekly_view.py` lines 950-958) does not check
whether the new date still fits the series' cadence pattern. -/
theorem only_this_edit_detach_rule
    (db : List POrder) (orig : POrder) (e : EditInput) (freshIds : List ℕ) :
    save_changes_edit db orig e Scope.only_this freshIds
      = db.map (fun o =>
          if o.id = orig.id then applyEditFields orig e Scope.only_this
          else o)
    ∧ ((e.sub ≠ orig.subscription_type ∨
        (e.new_date ≠ orig.delivery_date ∧ 0 < orig.subscription_type)) →
        (applyEditFields orig e Scope.only_this).subscription_type = 0 ∧
        (applyEditFields orig e Scope.only_this).from_date = none ∧
        (applyEditFields orig e Scope.only_this).to_date = none)
    ∧ (e.sub = orig.subscription_type →
        (e.new_date = orig.delivery_date ∨ orig.subscription_type = 0) →
        (applyEditFields orig e Scope.only_this).subscription_type = e.sub ∧
        (applyEditFields orig e Scope.only_this).from_date = e.from_date ∧
        (applyEditFields orig e Scope.only_this).to_date = e.to_date ∧
        (applyEditFields orig e Scope.only_this).delivery_date = e.new_date) := by
  refine ⟨rfl, ?_, ?_⟩
  · intro hdet
    unfold applyEditFields
    rw [if_pos ⟨rfl, hdet⟩]
    exact ⟨rfl, rfl, rfl⟩
  · intro hsub hdate
    unfold applyEditFields
    rw [if_neg]
    · exact ⟨rfl, rfl, rfl, rfl⟩
    · rintro ⟨-, hbad | ⟨hne, hpos⟩⟩
      · exact hbad hsub
      · rcases hdate with h | h
        · exact hne h
        · omega

/-- Witness for C5 amended: changing only the channel flag (same cadence,
same delivery date) keeps the order attached to its series. -/
theorem only_this_edit_detach_rule_witness :
    let keepInput : EditInput :=
      { new_date := 0, from_date := some 0, to_date := some 28, sub := 1,
        halbe := true, items := [] }
    keepInput.sub = origWeekly.subscription_type ∧
    keepInput.new_date = origWeekly.delivery_date ∧
    (applyEditFields origWeekly keepInput Scope.only_this).subscription_type
      = keepInput.sub ∧
    (applyEditFields origWeekly keepInput Scope.only_this).from_date
      = keepInput.from_date ∧
    (applyEditFields origWeekly keepInput Scope.only_this).to_date
      = keepInput.to_date := by
  intro keepInput
  obtain ⟨-, -, h3⟩ :=
    only_this_edit_detach_rule [origWeekly] origWeekly keepInput []
  obtain ⟨ha, hb, hc, -⟩ := h3 (by decide) (Or.inl (by decide))
  exact ⟨by decide, by decide, ha, hb, hc⟩

/-- C5 counterexample: an `only_this` edit of the weekly order that keeps
the cadence code (1 = weekly, 7 days per the frequency table) and moves
the delivery date exactly one cadence step (day 0 → day 7, still on the
series' weekly pattern) nevertheless detaches the order: the committed
row has cadence 0 and a cleared window, refuting "detached if and only
if the cadence changed or the date moved off the cadence pattern". -/
theorem only_this_on_pattern_still_detaches :
    editOnPattern.sub = origWeekly.subscription_type
    ∧ frequencies origWeekly.subscription_type = some 7
    ∧ (editOnPattern.new_date - origWeekly.delivery_date) % (7 : ℤ) = 0
    ∧ (save_changes_edit [origWeekly] origWeekly editOnPattern
        Scope.only_this []).map
        (fun o => (o.subscription_type, o.from_date, o.to_date))
      = [(0, none, none)] := by
  decide

/-- C6: `this_and_future` delete removes exactly the same customer's
orders with `delivery_date >= today` whose delivery weekday and item-id
set match the target's; in particular nothing delivered before `today`
is ever deleted. -/
theorem delete_this_and_future_spec
    (db : List POrder) (target : POrder) (today : ℤ) :
    (∀ o ∈ db,
      (o ∉ delete_order_this_and_future db target today ↔
        (o.customer = target.customer ∧ today ≤ o.delivery_date ∧
         pyWeekday o.delivery_date = pyWeekday target.delivery_date ∧
         (o.items.map (fun r => r.item.id)).toFinset
           = (target.items.map (fun r => r.item.id)).toFinset)))
    ∧ (∀ o ∈ db, o.delivery_date < today →
        o ∈ delete_order_this_and_future db target today) := by
  have key : ∀ o ∈ db,
      (o ∉ delete_order_this_and_future db target today ↔
        (o.customer = target.customer ∧ today ≤ o.delivery_date ∧
         pyWeekday o.delivery_date = pyWeekday target.delivery_date ∧
         (o.items.map (fun r => r.item.id)).toFinset
           = (target.items.map (fun r => r.item.id)).toFinset)) := by
    intro o ho
    simp only [delete_order_this_and_future]
    constructor
    · intro h
      by_contra hc
      apply h
      refine List.mem_filter.mpr ⟨ho, ?_⟩
      simp only [decide_eq_true_eq]
      intro hmem
      have h2 := (List.mem_filter.mp hmem).2
      have h3 := (List.mem_filter.mp (List.mem_filter.mp hmem).1).2
      simp only [decide_eq_true_eq] at h2 h3
      exact hc ⟨h3.1, h3.2, h2.1, h2.2⟩
    · intro hp h
      have h2 := (List.mem_filter.mp h).2
      simp only [decide_eq_true_eq] at h2
      apply h2
      refine List.mem_filter.mpr ⟨List.mem_filter.mpr ⟨ho, ?_⟩, ?_⟩
      · simp only [decide_eq_true_eq]
        exact ⟨hp.1, hp.2.1⟩
      · simp only [decide_eq_true_eq]
        exact ⟨hp.2.2.1, hp.2.2.2⟩
  refine ⟨key, ?_⟩
  intro o ho hlt
  by_contra hc
  have := (key o ho).mp hc
  omega

/-- Witness for C6: a store holding the target (delivery day 7) and a
past order (delivery day -7, same weekday and items): with `today = 0`
the past order survives the scoped delete and the target is removed. -/
theorem delete_this_and_future_spec_witness :
    let target : POrder :=
      { id := 20, order_id := 200, customer := 0, delivery_date := 7,
        from_date := none, to_date := none, subscription_type := 0,
        halbe_channel := false, is_future := false, items := [] }
    let past : POrder :=
      { id := 21, order_id := 201, customer := 0, delivery_date := -7,
        from_date := none, to_date := none, subscription_type := 0,
        halbe_channel := false, is_future := false, items := [] }
    past.delivery_date < 0 ∧
    past ∈ delete_order_this_and_future [target, past] target 0 ∧
    (target ∉ delete_order_this_and_future [target, past] target 0 ↔
      (target.customer = target.customer ∧ (0 : ℤ) ≤ target.delivery_date ∧
       pyWeekday target.delivery_date = pyWeekday target.delivery_date ∧
       (target.items.map (fun r => r.item.id)).toFinset
         = (target.items.map (fun r => r.item.id)).toFinset)) := by
  intro target past
  obtain ⟨key, hpast⟩ := delete_this_and_future_spec [target, past] target 0
  exact ⟨by decide, hpast past (by decide) (by decide),
    key target (by decide)⟩

lemma frequencies_pos {c delta : ℕ} (h : frequencies c = some delta) :
    0 < delta := by
  unfold frequencies at h
  split at h <;> simp_all <;> omega

lemma generate_mem_fields {o : SeedOrder} {L : List DraftOrder}
    (hgen : generate_subscription_orders o = some L) :
    ∀ d ∈ L, d.customer = o.customer ∧ d.from_date = o.from_date ∧
      d.to_date = o.to_date := by
  unfold generate_subscription_orders at hgen
  split_ifs at hgen with h
  · obtain rfl := Option.some.inj hgen
    intro d hd
    simp at hd
  · split at hgen
    · next delta toD hfreq hto =>
        obtain rfl := Option.some.inj hgen
        intro d hd
        rw [genLoop_closed _ _ _ _ (frequencies_pos hfreq)] at hd
        obtain ⟨k, -, rfl⟩ := List.mem_map.mp hd
        exact ⟨rfl, rfl, rfl⟩
    · obtain rfl := Option.some.inj hgen
      intro d hd
      simp at hd
    · exact absurd hgen (by simp)

lemma find?_append_of_none {α : Type} (p : α → Bool) :
    ∀ (l₁ l₂ : List α), l₁.find? p = none →
      (l₁ ++ l₂).find? p = l₂.find? p := by
  intro l₁
  induction l₁ with
  | nil =>
      intro l₂ _
      simp
  | cons a l ih =>
      intro l₂ h
      by_cases hpa : p a
      · rw [List.find?_cons_of_pos _ hpa] at h
        exact absurd h (by simp)
      · rw [List.find?_cons_of_neg _ (by simpa using hpa)] at h
        rw [List.cons_append, List.find?_cons_of_neg _ (by simpa using hpa)]
        exact ih l₂ h

lemma mem_buildFutures_elim (src : POrder) :
    ∀ (ds : List DraftOrder) (freshIds : List ℕ) (o : POrder),
      o ∈ buildFutures src ds freshIds →
      ∃ i d, d ∈ ds ∧ o = mkFutureOrder i d src := by
  intro ds
  induction ds with
  | nil =>
      intro freshIds o h
      simp [buildFutures] at h
  | cons d ds ih =>
      intro freshIds o h
      rw [buildFutures] at h
      rcases List.mem_cons.mp h with h1 | h1
      · exact ⟨freshIds.headD 0, d, List.mem_cons_self d ds, h1⟩
      · obtain ⟨i, d2, hd2, rfl⟩ := ih freshIds.tail o h1
        exact ⟨i, d2, List.mem_cons_of_mem d hd2, rfl⟩

lemma resolveSnapshotItems_eq (catalog : List Item) (dd : ℤ) :
    ∀ (rows : List OItemRow),
      (∀ r ∈ rows, catalog.find? (fun it => it.id = r.item.id) = some r.item) →
      resolveSnapshotItems catalog dd
          (rows.map (fun r => (r.item.id, r.amount)))
        = some (rows.map (fun r =>
            { item := r.item
              amount := r.amount
              production_date := dd - (r.item.total_days : ℤ)
              transfer_date := dd - (r.item.total_days : ℤ)
                + (r.item.germination_days : ℤ) })) := by
  intro rows
  induction rows with
  | nil =>
      intro _
      rfl
  | cons r rows ih =>
      intro h
      simp only [List.map_cons, resolveSnapshotItems]
      rw [h r (List.mem_cons_self r rows),
        ih (fun x hx => h x (List.mem_cons_of_mem r hx))]

/-- C7: undo round trips.  (1) After `save_order_create` records the new
order(s) under stable id `u0` (fresh in the store), undoing the creation
removes every created order: the single row for a one-off, the whole
generated series (matched by window and customer) for a subscription.
(2) Undoing a single-order delete recreates the order from its snapshot
with identical field values and the same `(item_id, amount)` line-item
pairs, possibly under a new storage row id. -/
theorem undo_round_trips :
    (∀ (db : List POrder) (customer : ℕ) (delivery : ℤ)
        (fromRaw toRaw : Option ℤ) (sub : ℕ) (halbe : Bool)
        (its : List (Item × ℚ)) (u0 : ℕ) (freshIds : List ℕ)
        (db2 created : List POrder),
      (∀ o ∈ db, o.order_id ≠ u0) →
      save_order_create db customer delivery fromRaw toRaw sub halbe its u0
        freshIds = some (db2, created) →
      ∀ c ∈ created, c ∉ undo_create_order db2 u0)
    ∧ (∀ (catalog : List Item) (db : List POrder) (x : POrder) (freshId : ℕ),
        x ∈ db →
        (∀ o ∈ db, o.order_id = x.order_id → o.id = x.id) →
        (∀ r ∈ x.items, catalog.find? (fun it => it.id = r.item.id)
            = some r.item) →
        ∃ db2, recreate_order_from_data catalog (delete_order_single db x)
            (serialize_order x) freshId = some db2 ∧
          ∃ o ∈ db2,
            o.order_id = x.order_id ∧ o.customer = x.customer ∧
            o.delivery_date = x.delivery_date ∧ o.from_date = x.from_date ∧
            o.to_date = x.to_date ∧
            o.subscription_type = x.subscription_type ∧
            o.halbe_channel = x.halbe_channel ∧ o.is_future = x.is_future ∧
            o.items.map (fun r => (r.item.id, r.amount))
              = x.items.map (fun r => (r.item.id, r.amount))) := by
  constructor
  · intro db customer delivery fromRaw toRaw sub halbe its u0 freshIds db2
      created hfresh heq
    simp only [save_order_create] at heq
    have hfnone : db.find? (fun o => o.order_id = u0) = none := by
      rw [List.find?_eq_none]
      intro x hx
      simpa using hfresh x hx
    by_cases hs : 0 < sub
    · rw [if_pos hs] at heq
      have hf' : (if 0 < sub then fromRaw else none) = fromRaw := if_pos hs
      have ht' : (if 0 < sub then toRaw else none) = toRaw := if_pos hs
      rw [hf', ht'] at heq
      cases hgen : generate_subscription_orders
          (toSeed (mkSeedOrderRow u0 customer delivery fromRaw toRaw sub
            halbe its) none) with
      | none =>
          rw [hgen] at heq
          exact absurd heq (by simp)
      | some fos =>
          rw [hgen] at heq
          obtain ⟨rfl, rfl⟩ : db ++ mkSeedOrderRow u0 customer delivery
              fromRaw toRaw sub halbe its :: buildFutures (mkSeedOrderRow u0
              customer delivery fromRaw toRaw sub halbe its) fos freshIds
              = db2 ∧ mkSeedOrderRow u0 customer delivery fromRaw toRaw sub
              halbe its :: buildFutures (mkSeedOrderRow u0 customer delivery
              fromRaw toRaw sub halbe its) fos freshIds = created :=
            Prod.mk.injEq _ _ _ _ ▸ Option.some.inj heq
          set O := mkSeedOrderRow u0 customer delivery fromRaw toRaw sub
            halbe its with hO
          have hfind : (db ++ O :: buildFutures O fos freshIds).find?
              (fun o => o.order_id = u0) = some O := by
            rw [find?_append_of_none _ _ _ hfnone]
            exact List.find?_cons_of_pos _ (by simp [hO, mkSeedOrderRow])
          intro c hc
          simp only [undo_create_order, hfind]
          cases fromRaw with
          | none =>
              have hfrom0 : (toSeed O none).from_date = none := by
                rw [hO]; rfl
              have hfos : fos = [] := by
                unfold generate_subscription_orders at hgen
                rw [if_pos (Or.inr (Or.inl hfrom0))] at hgen
                exact (Option.some.inj hgen).symm
              subst hfos
              rcases List.mem_cons.mp hc with rfl | hcf
              · rw [if_neg (fun h => h.1 rfl)]
                intro hmem
                have := (List.mem_filter.mp hmem).2
                simp [hO, mkSeedOrderRow] at this
              · simp [buildFutures] at hcf
          | some f =>
              cases toRaw with
              | none =>
                  have hto0 : (toSeed O none).to_date = none := by
                    rw [hO]; rfl
                  have hfos : fos = [] := by
                    unfold generate_subscription_orders at hgen
                    rw [if_pos (Or.inr (Or.inr hto0))] at hgen
                    exact (Option.some.inj hgen).symm
                  subst hfos
                  rcases List.mem_cons.mp hc with rfl | hcf
                  · rw [if_neg (fun h => h.2.1 rfl)]
                    intro hmem
                    have := (List.mem_filter.mp hmem).2
                    simp [hO, mkSeedOrderRow] at this
                  · simp [buildFutures] at hcf
              | some t =>
                  rw [if_pos ⟨by simp [hO, mkSeedOrderRow],
                    by simp [hO, mkSeedOrderRow], hs⟩]
                  intro hmem
                  have hpred := (List.mem_filter.mp hmem).2
                  simp only [decide_eq_true_eq] at hpred
                  apply hpred
                  rcases List.mem_cons.mp hc with rfl | hcf
                  · exact ⟨rfl, rfl, rfl⟩
                  · obtain ⟨i, d, hd, rfl⟩ := mem_buildFutures_elim O fos
                      freshIds c hcf
                    obtain ⟨hcust, hfrom, hto⟩ := generate_mem_fields hgen d hd
                    exact ⟨hfrom, hto, hcust⟩
    · rw [if_neg hs] at heq
      have hf' : (if 0 < sub then fromRaw else none) = none := if_neg hs
      have ht' : (if 0 < sub then toRaw else none) = none := if_neg hs
      rw [hf', ht'] at heq
      obtain ⟨rfl, rfl⟩ : db ++ [mkSeedOrderRow u0 customer delivery none
          none sub halbe its] = db2 ∧ [mkSeedOrderRow u0 customer delivery
          none none sub halbe its] = created :=
        Prod.mk.injEq _ _ _ _ ▸ Option.some.inj heq
      set O := mkSeedOrderRow u0 customer delivery none none sub halbe its
        with hO
      have hfind : (db ++ [O]).find? (fun o => o.order_id = u0)
          = some O := by
        rw [find?_append_of_none _ _ _ hfnone]
        exact List.find?_cons_of_pos _ (by simp [hO, mkSeedOrderRow])
      intro c hc
      rcases List.mem_singleton.mp hc with rfl
      simp only [undo_create_order, hfind]
      rw [if_neg (fun h => h.1 rfl)]
      intro hmem
      have := (List.mem_filter.mp hmem).2
      simp [hO, mkSeedOrderRow] at this
  · intro catalog db x freshId hx huniq hres
    have hfnone : (delete_order_single db x).find?
        (fun o => o.order_id = (serialize_order x).order_id) = none := by
      rw [List.find?_eq_none]
      intro o ho
      have h1 := List.mem_filter.mp ho
      simp only [decide_eq_true_eq] at h1
      simp only [serialize_order, decide_eq_true_eq]
      intro hoid
      exact h1.2 (huniq o h1.1 hoid)
    have hitems := resolveSnapshotItems_eq catalog x.delivery_date x.items hres
    refine ⟨delete_order_single db x ++ [rebuildInto freshId
      (serialize_order x) (x.items.map (fun r =>
        { item := r.item
          amount := r.amount
          production_date := x.delivery_date - (r.item.total_days : ℤ)
          transfer_date := x.delivery_date - (r.item.total_days : ℤ)
            + (r.item.germination_days : ℤ) }))], ?_, ?_⟩
    · simp only [recreate_order_from_data, serialize_order]
      rw [hitems]
      simp only [serialize_order] at hfnone
      rw [hfnone]
    · refine ⟨rebuildInto freshId (serialize_order x) _,
        List.mem_append_right _ (List.mem_singleton.mpr rfl), rfl, rfl, rfl,
        rfl, rfl, rfl, rfl, rfl, ?_⟩
      simp only [rebuildInto, List.map_map]
      rfl

/-- Witness for C7: creating a weekly series (seed day 0, window
`[0, 14]`, two generated futures) and undoing removes all created rows;
deleting the one-off `xOrderC7` and undoing restores its fields and
`(item_id, amount)` pairs. -/
theorem undo_round_trips_witness :
    (∀ o ∈ ([] : List POrder), o.order_id ≠ 5) ∧
    (save_order_create [] 0 0 (some 0) (some 14) 1 false [] 5 [6, 7]
        = some (orderC7 :: buildFutures orderC7
            (genLoop (toSeed orderC7 none) 7 14 7) [6, 7],
          orderC7 :: buildFutures orderC7
            (genLoop (toSeed orderC7 none) 7 14 7) [6, 7]) ∧
      ∀ c ∈ orderC7 :: buildFutures orderC7
          (genLoop (toSeed orderC7 none) 7 14 7) [6, 7],
        c ∉ undo_create_order (orderC7 :: buildFutures orderC7
          (genLoop (toSeed orderC7 none) 7 14 7) [6, 7]) 5) ∧
    (xOrderC7 ∈ [xOrderC7] ∧
      ∃ db2, recreate_order_from_data [itemSix]
          (delete_order_single [xOrderC7] xOrderC7)
          (serialize_order xOrderC7) 9 = some db2 ∧
        ∃ o ∈ db2,
          o.order_id = xOrderC7.order_id ∧ o.customer = xOrderC7.customer ∧
          o.delivery_date = xOrderC7.delivery_date ∧
          o.from_date = xOrderC7.from_date ∧
          o.to_date = xOrderC7.to_date ∧
          o.subscription_type = xOrderC7.subscription_type ∧
          o.halbe_channel = xOrderC7.halbe_channel ∧
          o.is_future = xOrderC7.is_future ∧
          o.items.map (fun r => (r.item.id, r.amount))
            = xOrderC7.items.map (fun r => (r.item.id, r.amount))) := by
  have heq : save_order_create [] 0 0 (some 0) (some 14) 1 false [] 5 [6, 7]
      = some (orderC7 :: buildFutures orderC7
          (genLoop (toSeed orderC7 none) 7 14 7) [6, 7],
        orderC7 :: buildFutures orderC7
          (genLoop (toSeed orderC7 none) 7 14 7) [6, 7]) := rfl
  refine ⟨by simp, ⟨heq, ?_⟩, by simp, ?_⟩
  · exact (undo_round_trips).1 [] 0 0 (some 0) (some 14) 1 false [] 5 [6, 7]
      _ _ (by simp) heq
  · exact (undo_round_trips).2 [itemSix] [xOrderC7] xOrderC7 9 (by simp)
      (by decide) (by decide)

lemma mentions_append_left {n a : String} (b : String) (h : mentions n a) :
    mentions n (a ++ b) := by
  obtain ⟨s, t, hst⟩ := h
  exact ⟨s, t ++ b.data, by rw [String.data_append, ← hst]; simp⟩

lemma mentions_append_right {n b : String} (a : String) (h : mentions n b) :
    mentions n (a ++ b) := by
  obtain ⟨s, t, hst⟩ := h
  exact ⟨a.data ++ s, t, by rw [String.data_append, ← hst]; simp⟩

lemma amount_error_subscription_ne_parse (s item : String) :
    amount_error_subscription s item ≠ amount_error_parse item := by
  intro h
  have h2 := congrArg (fun str => str.data[15]?) h
  simp only [amount_error_subscription, amount_error_parse,
    String.data_append, List.append_assoc] at h2
  rw [List.getElem?_append_left (by decide),
    List.getElem?_append_left (by decide)] at h2
  exact absurd h2 (by decide)

/-- C8: amount validation.  A cadence-label amount string is rejected
with the dedicated error that mentions both the invalid amount
("Ungültige Menge") and the subscription type ("Abonnementtyp") and
differs from the bare float-parse error; any other string that fails
float conversion gets the generic parse error; a parsed amount `≤ 0` is
rejected; and a validation failure in `save_changes` returns before the
`db.atomic()` block, leaving the store unchanged. -/
theorem amount_validation_spec :
    (∀ s ∈ subscription_type_strings, ∀ item : String,
      validate_amount s item = Sum.inl (amount_error_subscription s item)
      ∧ mentions "Ungültige Menge" (amount_error_subscription s item)
      ∧ mentions "Abonnementtyp" (amount_error_subscription s item)
      ∧ amount_error_subscription s item ≠ amount_error_parse item)
    ∧ (∀ s item : String, s ∉ subscription_type_strings →
        pyFloat? (replaceCommas s) = none →
        validate_amount s item = Sum.inl (amount_error_parse item))
    ∧ (∀ (s item : String) (a : ℚ), s ∉ subscription_type_strings →
        pyFloat? (replaceCommas s) = some a → a ≤ 0 →
        validate_amount s item = Sum.inl (amount_error_nonpositive item))
    ∧ (∀ (db : List POrder) (orig : POrder) (new_date : ℤ)
        (from_date to_date : Option ℤ) (sub : ℕ) (halbe : Bool)
        (items_catalog : List Item) (rows : List (String × String))
        (scope : Scope) (freshIds : List ℕ) (err : String),
        gather_order_items items_catalog rows = Sum.inl err →
        save_changes_model db orig new_date from_date to_date sub halbe
          items_catalog rows scope freshIds = (db, some err)) := by
  refine ⟨?_, ?_, ?_, ?_⟩
  · intro s hs item
    refine ⟨?_, ?_, ?_, amount_error_subscription_ne_parse s item⟩
    · unfold validate_amount
      rw [if_pos hs]
    · exact mentions_append_left item (mentions_append_left _
        (mentions_append_left s (by unfold mentions; decide)))
    · exact mentions_append_left item
        (mentions_append_right _ (by unfold mentions; decide))
  · intro s item hns hfl
    unfold validate_amount
    rw [if_neg hns, hfl]
  · intro s item a hns hfl hle
    unfold validate_amount
    rw [if_neg hns, hfl]
    simp only [if_pos hle]
  · intro db orig new_date from_date to_date sub halbe items_catalog rows
      scope freshIds err hg
    unfold save_changes_model
    rw [hg]

/-- Witness for C8: the literal label "Wöchentlich" typed as an amount
for item "Basilikum" hits the dedicated subscription-type error, and the
same failing row aborts `save_changes` with the store untouched. -/
theorem amount_validation_spec_witness :
    "Wöchentlich" ∈ subscription_type_strings ∧
    validate_amount "Wöchentlich" "Basilikum"
      = Sum.inl (amount_error_subscription "Wöchentlich" "Basilikum") ∧
    mentions "Ungültige Menge"
      (amount_error_subscription "Wöchentlich" "Basilikum") ∧
    mentions "Abonnementtyp"
      (amount_error_subscription "Wöchentlich" "Basilikum") ∧
    amount_error_subscription "Wöchentlich" "Basilikum"
      ≠ amount_error_parse "Basilikum" ∧
    gather_order_items [] [("Basilikum", "Wöchentlich")]
      = Sum.inl (amount_error_subscription "Wöchentlich" "Basilikum") ∧
    save_changes_model [otherOrder] origWeekly 0 none none 0 false []
        [("Basilikum", "Wöchentlich")] Scope.only_this []
      = ([otherOrder],
        some (amount_error_subscription "Wöchentlich" "Basilikum")) := by
  have hmem : "Wöchentlich" ∈ subscription_type_strings := by decide
  have hgather : gather_order_items [] [("Basilikum", "Wöchentlich")]
      = Sum.inl (amount_error_subscription "Wöchentlich" "Basilikum") := by
    decide
  obtain ⟨p1, p2, p3, p4⟩ :=
    (amount_validation_spec).1 "Wöchentlich" hmem "Basilikum"
  exact ⟨hmem, p1, p2, p3, p4, hgather,
    (amount_validation_spec).2.2.2 [otherOrder] origWeekly 0 none none 0
      false [] [("Basilikum", "Wöchentlich")] Scope.only_this []
      (amount_error_subscription "Wöchentlich" "Basilikum") hgather⟩

lemma firstOccurrences_mem {α : Type} [DecidableEq α] :
    ∀ (l seen : List α) (k : α),
      k ∈ firstOccurrences seen l ↔ (k ∈ l ∧ k ∉ seen) := by
  intro l
  induction l with
  | nil =>
      intro seen k
      simp [firstOccurrences]
  | cons a l ih =>
      intro seen k
      rw [firstOccurrences]
      by_cases ha : a ∈ seen
      · rw [if_pos ha, ih]
        constructor
        · rintro ⟨h1, h2⟩
          exact ⟨List.mem_cons_of_mem a h1, h2⟩
        · rintro ⟨h1, h2⟩
          rcases List.mem_cons.mp h1 with rfl | h1
          · exact absurd ha h2
          · exact ⟨h1, h2⟩
      · rw [if_neg ha]
        constructor
        · intro h
          rcases List.mem_cons.mp h with rfl | h1
          · exact ⟨List.mem_cons_self k l, ha⟩
          · obtain ⟨h2, h3⟩ := (ih (a :: seen) k).mp h1
            exact ⟨List.mem_cons_of_mem a h2,
              fun hs => h3 (List.mem_cons_of_mem a hs)⟩
        · rintro ⟨h1, h2⟩
          rcases List.mem_cons.mp h1 with rfl | h1
          · exact List.mem_cons_self k _
          · by_cases hk : k = a
            · subst hk
              exact List.mem_cons_self k _
            · exact List.mem_cons_of_mem a ((ih (a :: seen) k).mpr
                ⟨h1, fun hs => (List.mem_cons.mp hs).elim hk h2⟩)

lemma firstOccurrences_nodup {α : Type} [DecidableEq α] :
    ∀ (l seen : List α), (firstOccurrences seen l).Nodup := by
  intro l
  induction l with
  | nil =>
      intro seen
      simp [firstOccurrences]
  | cons a l ih =>
      intro seen
      rw [firstOccurrences]
      by_cases ha : a ∈ seen
      · rw [if_pos ha]
        exact ih seen
      · rw [if_neg ha]
        refine List.nodup_cons.mpr ⟨?_, ih (a :: seen)⟩
        intro hmem
        exact ((firstOccurrences_mem l (a :: seen) a).mp hmem).2
          (List.mem_cons_self a seen)

/-- C9 amended: the production plan contains one row per distinct
grouping key `(production_date, item name, seed quantity, substrate)`
among the order items whose `production_date` lies in the inclusive
window, with the group's amounts summed, and the rows are sorted by
`production_date` — the query's one `ORDER BY` key; the relative order
of rows sharing a production date is not specified by the query. -/
theorem production_plan_spec (rows : List OIRow) (startD endD : ℤ) :
    List.Sorted (fun a b => a.production_date ≤ b.production_date)
      (get_production_plan rows startD endD)
    ∧ (∀ p ∈ get_production_plan rows startD endD,
        ∃ r ∈ rows, startD ≤ r.production_date ∧ r.production_date ≤ endD ∧
          rowKey r = (p.production_date, p.item_name, p.seed_quantity,
            p.substrate))
    ∧ (∀ r ∈ rows, startD ≤ r.production_date → r.production_date ≤ endD →
        ∃ p ∈ get_production_plan rows startD endD,
          (p.production_date, p.item_name, p.seed_quantity, p.substrate)
            = rowKey r)
    ∧ ((get_production_plan rows startD endD).map
        (fun p => (p.production_date, p.item_name, p.seed_quantity,
          p.substrate))).Nodup
    ∧ (∀ p ∈ get_production_plan rows startD endD,
        p.total_amount = (((rows.filter (fun r =>
            startD ≤ r.production_date ∧ r.production_date ≤ endD)).filter
          (fun r => rowKey r = (p.production_date, p.item_name,
            p.seed_quantity, p.substrate))).map (fun r => r.amount)).sum) := by
  haveI hTot : IsTotal PlanRow
      (fun a b => a.production_date ≤ b.production_date) :=
    ⟨fun a b => le_total _ _⟩
  haveI hTrans : IsTrans PlanRow
      (fun a b => a.production_date ≤ b.production_date) :=
    ⟨fun _ _ _ hab hbc => le_trans hab hbc⟩
  have hperm : (get_production_plan rows startD endD).Perm
      ((firstOccurrences [] ((rows.filter (fun r =>
        startD ≤ r.production_date ∧ r.production_date ≤ endD)).map
          rowKey)).map (fun k =>
        { production_date := k.1
          item_name := k.2.1
          seed_quantity := k.2.2.1
          substrate := k.2.2.2
          total_amount := (((rows.filter (fun r =>
              startD ≤ r.production_date ∧ r.production_date ≤ endD)).filter
            (fun r => rowKey r = k)).map (fun r => r.amount)).sum
          : PlanRow })) :=
    List.perm_insertionSort _ _
  refine ⟨?_, ?_, ?_, ?_, ?_⟩
  · exact List.sorted_insertionSort _ _
  · intro p hp
    rw [hperm.mem_iff] at hp
    obtain ⟨k, hk, rfl⟩ := List.mem_map.mp hp
    obtain ⟨hk1, -⟩ := (firstOccurrences_mem _ _ _).mp hk
    obtain ⟨r, hr, hkey⟩ := List.mem_map.mp hk1
    have hwin := (List.mem_filter.mp hr).2
    simp only [decide_eq_true_eq] at hwin
    exact ⟨r, (List.mem_filter.mp hr).1, hwin.1, hwin.2, hkey⟩
  · intro r hr h1 h2
    have hrwin : r ∈ rows.filter (fun r =>
        startD ≤ r.production_date ∧ r.production_date ≤ endD) :=
      List.mem_filter.mpr ⟨hr, by simp only [decide_eq_true_eq]; exact ⟨h1, h2⟩⟩
    have hk : rowKey r ∈ firstOccurrences [] ((rows.filter (fun r =>
        startD ≤ r.production_date ∧ r.production_date ≤ endD)).map
        rowKey) :=
      (firstOccurrences_mem _ _ _).mpr
        ⟨List.mem_map.mpr ⟨r, hrwin, rfl⟩, by simp⟩
    refine ⟨_, hperm.mem_iff.mpr (List.mem_map.mpr ⟨rowKey r, hk, rfl⟩), ?_⟩
    rfl
  · rw [(hperm.map _).nodup_iff, List.map_map]
    have hid : List.map ((fun p : PlanRow => (p.production_date, p.item_name,
          p.seed_quantity, p.substrate)) ∘ (fun k : ℤ × String × ℚ ×
            Option String =>
          ({ production_date := k.1
             item_name := k.2.1
             seed_quantity := k.2.2.1
             substrate := k.2.2.2
             total_amount := (((rows.filter (fun r =>
                 startD ≤ r.production_date ∧
                   r.production_date ≤ endD)).filter
               (fun r => rowKey r = k)).map
                 (fun r => r.amount)).sum : PlanRow })))
          (firstOccurrences [] ((rows.filter (fun r =>
            startD ≤ r.production_date ∧ r.production_date ≤ endD)).map
              rowKey))
        = List.map id (firstOccurrences [] ((rows.filter (fun r =>
            startD ≤ r.production_date ∧ r.production_date ≤ endD)).map
              rowKey)) :=
      List.map_congr_left (fun k _ => rfl)
    rw [hid, List.map_id]
    exact firstOccurrences_nodup _ _
  · intro p hp
    rw [hperm.mem_iff] at hp
    obtain ⟨k, -, rfl⟩ := List.mem_map.mp hp
    rfl

/-- Witness for C9 amended: with rows `rowNameB`, `rowNameA` and window
`[0, 10]`, the in-window row `rowNameA` has a result row carrying its
grouping key. -/
theorem production_plan_spec_witness :
    rowNameA ∈ [rowNameB, rowNameA] ∧
    (0 : ℤ) ≤ rowNameA.production_date ∧ rowNameA.production_date ≤ 10 ∧
    ∃ p ∈ get_production_plan [rowNameB, rowNameA] 0 10,
      (p.production_date, p.item_name, p.seed_quantity, p.substrate)
        = rowKey rowNameA := by
  refine ⟨by decide, by decide, by decide, ?_⟩
  exact (production_plan_spec [rowNameB, rowNameA] 0 10).2.2.1 rowNameA
    (by decide) (by decide) (by decide)

/-- C9 counterexample: the query orders by `production_date` only
(`database.py` line 107; contrast `get_transfer_schedule`, line 159,
which orders by date *and* name).  With item "B" stored before item "A",
both producing on day 3, the plan lists "B" before "A" although "A"
precedes "B" alphabetically: the result is not ordered by production
date then item name. -/
theorem production_plan_not_sorted_by_name :
    (get_production_plan [rowNameB, rowNameA] 0 10).map
      (fun p => (p.production_date, p.item_name)) = [(3, "B"), (3, "A")]
    ∧ rowNameA.item.name.data = ['A'] ∧ rowNameB.item.name.data = ['B']
    ∧ ('A' : Char) < 'B' := by
  refine ⟨by decide, by decide, by decide, by decide⟩
